import Mathlib

/-!
Verification development for the degenpredict repository.

The repository ships a PM2 process configuration (`ecosystem.config.js`)
together with operator documentation.  The Consensus and Scoring Engine
described by the specification (ResponseCollector, ConsensusEngine,
ScoringEngine, WeightPublisher) has no source file in the repository, so
those components are modelled here directly from the specification text;
each such definition carries a doc comment starting with
`Modelled from the spec:`.  The shipped `ecosystem.config.js` is embedded
faithfully below it.

Numeric confidences and scores are modelled as exact rationals.
-/

/-! ## Consensus and Scoring Engine (modelled from the spec) -/

/-- Modelled from the spec: a ResponderAnswer for one statement, restricted to
the fields the ConsensusEngine and ScoringEngine consume (responder identity,
boolean resolution, confidence value).  The engine source is not in the
repository. -/
structure ResponderAnswer where
  responder : String
  resolution : Bool
  confidence : ℚ
  deriving DecidableEq, Repr

/-- Modelled from the spec: the confidence-weighted sum of the `true` votes:
each answer contributes its confidence value to its chosen side. -/
def trueSum (answers : List ResponderAnswer) : ℚ :=
  ((answers.filter (fun a => a.resolution)).map (fun a => a.confidence)).sum

/-- Modelled from the spec: the confidence-weighted sum of the `false` votes. -/
def falseSum (answers : List ResponderAnswer) : ℚ :=
  ((answers.filter (fun a => !a.resolution)).map (fun a => a.confidence)).sum

/-- Modelled from the spec: the agreement ratio of a ConsensusResult, the
fraction of the participating answers that chose the canonical resolution. -/
def agreementShare (answers : List ResponderAnswer) (res : Bool) : ℚ :=
  ((answers.filter (fun a => a.resolution == res)).length : ℚ) / (answers.length : ℚ)

/-- Modelled from the spec: a ConsensusResult (canonical boolean resolution,
canonical confidence, participation count, agreement ratio) extended with the
explicit tie marker the spec requires. -/
structure ConsensusResult where
  resolution : Bool
  confidence : ℚ
  participation : ℕ
  agreement : ℚ
  tie : Bool
  deriving DecidableEq, Repr

/-- Modelled from the spec: the outcome of ConsensusEngine on one statement,
either a ConsensusResult or the explicit insufficient-data marker. -/
inductive ConsensusOutcome where
  | insufficientData
  | result (r : ConsensusResult)
  deriving DecidableEq, Repr

/-- Modelled from the spec: ConsensusEngine.  Below quorum the statement is
marked insufficient data.  Otherwise the canonical resolution is the side with
the greater confidence-weighted sum, canonical confidence is the winning sum
divided by the total weighted sum, and an exact tie resolves to the declared
default `false` with the tie marker set. -/
def consensus (quorum : ℕ) (answers : List ResponderAnswer) : ConsensusOutcome :=
  if answers.length < quorum then
    ConsensusOutcome.insufficientData
  else
    let ts := trueSum answers
    let fs := falseSum answers
    if ts = fs then
      ConsensusOutcome.result
        ⟨false, fs / (ts + fs), answers.length, agreementShare answers false, true⟩
    else if fs < ts then
      ConsensusOutcome.result
        ⟨true, ts / (ts + fs), answers.length, agreementShare answers true, false⟩
    else
      ConsensusOutcome.result
        ⟨false, fs / (ts + fs), answers.length, agreementShare answers false, false⟩

/-- Modelled from the spec: the ScoringEngine update rule
`new_score = decay_factor * old_score + (1 - decay_factor) * reward_signal`. -/
def updateScore (decayFactor oldScore reward : ℚ) : ℚ :=
  decayFactor * oldScore + (1 - decayFactor) * reward

/-- Modelled from the spec: a concrete per-responder reward signal in `[0,1]`
combining agreement with the canonical resolution and confidence calibration
(the exact formula is left open by the spec; this one rewards
confident-and-correct answers and penalizes confident-and-wrong answers more
than low-confidence wrong answers). -/
def rewardSignal (a : ResponderAnswer) (canonical : Bool) : ℚ :=
  if a.resolution = canonical then (1 + a.confidence) / 2 else (1 - a.confidence) / 2

/-- Modelled from the spec: one scoring pass of ScoringEngine over a single
statement.  Scores are a total map from responder identity to current score.
Statements marked insufficient data drive no update; a responder without a
valid answer keeps its score unchanged. -/
def scoreEpoch (decayFactor : ℚ) (quorum : ℕ) (answers : List ResponderAnswer)
    (scores : String → ℚ) : String → ℚ :=
  match consensus quorum answers with
  | ConsensusOutcome.insufficientData => scores
  | ConsensusOutcome.result r => fun resp =>
      match answers.find? (fun a => a.responder == resp) with
      | none => scores resp
      | some a => updateScore decayFactor (scores resp) (rewardSignal a r.resolution)

/-- Modelled from the spec: iterated application of the scoring update rule to
one responder over a sequence of reward signals. -/
def applyRewards (decayFactor s : ℚ) (rewards : List ℚ) : ℚ :=
  rewards.foldl (updateScore decayFactor) s

/-- Modelled from the spec: a raw submission as it arrives at the
ResponseCollector, before the deadline and well-formedness checks. -/
structure RawAnswer where
  responder : String
  resolution : Bool
  confidence : ℚ
  timestamp : ℚ
  deriving DecidableEq, Repr

/-- Modelled from the spec: an answer arriving after the collection deadline is
classified late and discarded. -/
def withinDeadline (deadline : ℚ) (r : RawAnswer) : Bool :=
  decide (r.timestamp ≤ deadline)

/-- Modelled from the spec: a malformed answer has a confidence outside
`[0,1]`; well-formed answers are the others. -/
def wellFormed (r : RawAnswer) : Bool :=
  decide (0 ≤ r.confidence ∧ r.confidence ≤ 1)

/-- Modelled from the spec: ResponseCollector for one statement.  Late and
malformed answers are rejected per answer; a duplicate answer from the same
responder is rejected and the responder is treated as giving no answer. -/
def collect (deadline : ℚ) (raw : List RawAnswer) : List ResponderAnswer :=
  let timely := raw.filter (fun r => withinDeadline deadline r && wellFormed r)
  let unique := timely.filter
    (fun r => (timely.filter (fun s => s.responder == r.responder)).length == 1)
  unique.map (fun r => ⟨r.responder, r.resolution, r.confidence⟩)

/-- Modelled from the spec: one ResponderScore record as consumed by
WeightPublisher. -/
structure ScoreEntry where
  responder : String
  score : ℚ
  deriving DecidableEq, Repr

/-- Modelled from the spec: a responder is eligible for weight when its score
is positive and not below the configured floor; responders with score at or
below zero, or below the floor, receive zero weight. -/
def eligibleB (floor : ℚ) (e : ScoreEntry) : Bool :=
  decide (0 < e.score ∧ floor ≤ e.score)

/-- Modelled from the spec: the outcome of WeightPublisher, either a weight
vector or the explicit no-weights-to-publish result. -/
inductive PublishResult where
  | noWeights
  | weights (w : List (String × ℚ))
  deriving DecidableEq, Repr

/-- Modelled from the spec: WeightPublisher.  Each eligible responder receives
its score divided by the sum of all eligible scores, scaled to the external
budget; ineligible responders receive zero; when no responder is eligible the
explicit no-weights result is returned. -/
def publish (floor budget : ℚ) (scores : List ScoreEntry) : PublishResult :=
  let elig := scores.filter (eligibleB floor)
  if elig.isEmpty then
    PublishResult.noWeights
  else
    let total := (elig.map ScoreEntry.score).sum
    PublishResult.weights
      (scores.map (fun e =>
        (e.responder, if eligibleB floor e then budget * e.score / total else 0)))

/-- Modelled from the spec: the numeric and time configuration surface of the
engine (collection deadline, quorum minimum, decay factor, score floor,
publish cadence multiplier, fetch interval in minutes). -/
structure EngineConfig where
  collectionDeadline : ℚ
  quorumMin : ℕ
  decayFactor : ℚ
  scoreFloor : ℚ
  publishCadence : ℕ
  fetchIntervalMinutes : ℚ
  deriving DecidableEq, Repr

/-- Modelled from the spec: startup validation of the configuration surface;
an out-of-range value is rejected with a descriptive ConfigInvalid error
rather than silently clamped or defaulted.  No such validation exists in the
shipped repository code. -/
def validateConfig (c : EngineConfig) : Except String EngineConfig :=
  if c.collectionDeadline ≤ 0 then
    Except.error "ConfigInvalid: collection deadline must be a positive duration"
  else if c.quorumMin = 0 then
    Except.error "ConfigInvalid: quorum minimum must be at least 1"
  else if c.decayFactor ≤ 0 ∨ 1 ≤ c.decayFactor then
    Except.error "ConfigInvalid: decay factor must lie strictly between 0 and 1"
  else if c.scoreFloor < 0 then
    Except.error "ConfigInvalid: score floor must be non-negative"
  else if c.publishCadence = 0 then
    Except.error "ConfigInvalid: publish cadence multiplier must be at least 1"
  else if c.fetchIntervalMinutes < 16 then
    Except.error "ConfigInvalid: fetch interval must be at least 16 minutes"
  else
    Except.ok c

/-! ## Embedding of src/ecosystem.config.js -/

/-- The process environment read by `ecosystem.config.js` through
`process.env`; a variable that is not set is `none`.  `HOME` and `PATH` are
modelled as present since the script interpolates them unconditionally. -/
structure ProcessEnv where
  HOME : String
  NETWORK : Option String
  SUBNET_UID : Option String
  API_URL : Option String
  LOG_LEVEL : Option String
  LOG_FORMAT : Option String
  MAX_WORKERS : Option String
  REQUEST_TIMEOUT : Option String
  WALLET_NAME : Option String
  MINER_STRATEGY : Option String
  STRATEGY_WEIGHTS : Option String
  PATH : String
  deriving DecidableEq, Repr

/-- JavaScript `a || b` on an environment string: an unset variable and the
empty string (both falsy) are replaced by the default. -/
def jsOr (v : Option String) (d : String) : String :=
  match v with
  | none => d
  | some s => if s = "" then d else s

/-- `path.join` as used in the script, modelled on already-normalized
segments. -/
def pathJoin (a b : String) : String :=
  a ++ "/" ++ b

/-- The `hotkeyExists` helper of `ecosystem.config.js`: the path of the hotkey
file under `$HOME/.bittensor/wallets/<wallet>/hotkeys/<hotkey>`. -/
def hotkeyPath (home walletName hotkeyName : String) : String :=
  pathJoin (pathJoin (pathJoin (pathJoin (pathJoin home ".bittensor") "wallets") walletName)
    "hotkeys") hotkeyName

/-- The resolved `baseEnv` object of `ecosystem.config.js`. -/
structure BaseEnv where
  NETWORK : String
  SUBNET_UID : String
  API_URL : String
  LOG_LEVEL : String
  LOG_FORMAT : String
  LOG_DIR : String
  MAX_WORKERS : String
  REQUEST_TIMEOUT : String
  WALLET_NAME : String
  deriving DecidableEq, Repr

/-- The `baseEnv` computation of `ecosystem.config.js` (lines 34-44): each
variable defaults through JavaScript `||`. -/
def baseEnv (p : ProcessEnv) : BaseEnv :=
  { NETWORK := jsOr p.NETWORK "finney"
    SUBNET_UID := jsOr p.SUBNET_UID "90"
    API_URL := jsOr p.API_URL "https://api.subnet90.com"
    LOG_LEVEL := jsOr p.LOG_LEVEL "INFO"
    LOG_FORMAT := jsOr p.LOG_FORMAT "json"
    LOG_DIR := "./logs"
    MAX_WORKERS := jsOr p.MAX_WORKERS "4"
    REQUEST_TIMEOUT := jsOr p.REQUEST_TIMEOUT "30"
    WALLET_NAME := jsOr p.WALLET_NAME "sn90-4" }

/-- The `baseConfig` object of `ecosystem.config.js` (lines 18-31). -/
structure BaseConfig where
  interpreter : String
  exec_interpreter : String
  exec_mode : String
  cwd : String
  error_file : String
  out_file : String
  log_date_format : String
  max_restarts : ℕ
  min_uptime : String
  restart_delay : ℕ
  autorestart : Bool
  watch : Bool
  deriving DecidableEq, Repr

/-- The `baseConfig` values of `ecosystem.config.js`, parameterized by the
resolved base directory. -/
def baseConfig (base : String) : BaseConfig :=
  { interpreter := pathJoin (pathJoin (pathJoin base ".venv") "bin") "python3"
    exec_interpreter := "python3"
    exec_mode := "fork"
    cwd := base
    error_file := pathJoin base "logs"
    out_file := pathJoin base "logs"
    log_date_format := "YYYY-MM-DD HH:mm:ss"
    max_restarts := 10
    min_uptime := "10s"
    restart_delay := 4000
    autorestart := true
    watch := false }

/-- The per-app `env` object: the spread of `baseEnv` plus the app-specific
variables (miner-only fields are `none` on validator apps and conversely). -/
structure AppEnv where
  NETWORK : String
  SUBNET_UID : String
  API_URL : String
  LOG_LEVEL : String
  LOG_FORMAT : String
  LOG_DIR : String
  MAX_WORKERS : String
  REQUEST_TIMEOUT : String
  WALLET_NAME : String
  HOTKEY_NAME : String
  MINER_PORT : Option String
  MINER_STRATEGY : Option String
  MINER_ID : Option String
  STRATEGY_WEIGHTS : Option String
  VALIDATOR_PORT : Option String
  VIRTUAL_ENV : String
  PATH : String
  deriving DecidableEq, Repr

/-- One entry of `minerConfigs` or `validatorConfigs`. -/
structure ProcConfig where
  name : String
  port : String
  hotkey : String
  deriving DecidableEq, Repr

/-- The `minerConfigs` array of `ecosystem.config.js` (lines 47-49). -/
def minerConfigs : List ProcConfig :=
  [⟨"sn90-145", "8091", "default"⟩]

/-- The `validatorConfigs` array of `ecosystem.config.js` (lines 52-54). -/
def validatorConfigs : List ProcConfig :=
  [⟨"validator_1", "9091", "validator"⟩]

/-- One app object pushed onto the exported `apps` array: the spread of
`baseConfig` with `name`, `script`, overridden log files and the per-app
`env`. -/
structure App where
  interpreter : String
  exec_interpreter : String
  exec_mode : String
  cwd : String
  error_file : String
  out_file : String
  log_date_format : String
  max_restarts : ℕ
  min_uptime : String
  restart_delay : ℕ
  autorestart : Bool
  watch : Bool
  name : String
  script : String
  env : AppEnv
  deriving DecidableEq, Repr

/-- The miner app object built at lines 62-78 of `ecosystem.config.js`. -/
def mkMinerApp (base : String) (p : ProcessEnv) (c : ProcConfig) : App :=
  let bc := baseConfig base
  let be := baseEnv p
  { interpreter := bc.interpreter
    exec_interpreter := bc.exec_interpreter
    exec_mode := bc.exec_mode
    cwd := bc.cwd
    error_file := pathJoin (pathJoin base "logs") (c.name ++ ".error.log")
    out_file := pathJoin (pathJoin base "logs") (c.name ++ ".log")
    log_date_format := bc.log_date_format
    max_restarts := bc.max_restarts
    min_uptime := bc.min_uptime
    restart_delay := bc.restart_delay
    autorestart := bc.autorestart
    watch := bc.watch
    name := c.name
    script := pathJoin base "run_miner.py"
    env :=
      { NETWORK := be.NETWORK
        SUBNET_UID := be.SUBNET_UID
        API_URL := be.API_URL
        LOG_LEVEL := be.LOG_LEVEL
        LOG_FORMAT := be.LOG_FORMAT
        LOG_DIR := be.LOG_DIR
        MAX_WORKERS := be.MAX_WORKERS
        REQUEST_TIMEOUT := be.REQUEST_TIMEOUT
        WALLET_NAME := be.WALLET_NAME
        HOTKEY_NAME := c.hotkey
        MINER_PORT := some c.port
        MINER_STRATEGY := some (jsOr p.MINER_STRATEGY "hybrid")
        MINER_ID := some c.name
        STRATEGY_WEIGHTS := some (jsOr p.STRATEGY_WEIGHTS
          "\x7b\"ai\": 0.6, \"heuristic\": 0.4\x7d")
        VALIDATOR_PORT := none
        VIRTUAL_ENV := pathJoin base ".venv"
        PATH := pathJoin (pathJoin base ".venv") "bin" ++ ":" ++ p.PATH } }

/-- The validator app object built at lines 85-98 of `ecosystem.config.js`. -/
def mkValidatorApp (base : String) (p : ProcessEnv) (c : ProcConfig) : App :=
  let bc := baseConfig base
  let be := baseEnv p
  { interpreter := bc.interpreter
    exec_interpreter := bc.exec_interpreter
    exec_mode := bc.exec_mode
    cwd := bc.cwd
    error_file := pathJoin (pathJoin base "logs") (c.name ++ ".error.log")
    out_file := pathJoin (pathJoin base "logs") (c.name ++ ".log")
    log_date_format := bc.log_date_format
    max_restarts := bc.max_restarts
    min_uptime := bc.min_uptime
    restart_delay := bc.restart_delay
    autorestart := bc.autorestart
    watch := bc.watch
    name := c.name
    script := pathJoin base "run_validator.py"
    env :=
      { NETWORK := be.NETWORK
        SUBNET_UID := be.SUBNET_UID
        API_URL := be.API_URL
        LOG_LEVEL := be.LOG_LEVEL
        LOG_FORMAT := be.LOG_FORMAT
        LOG_DIR := be.LOG_DIR
        MAX_WORKERS := be.MAX_WORKERS
        REQUEST_TIMEOUT := be.REQUEST_TIMEOUT
        WALLET_NAME := be.WALLET_NAME
        HOTKEY_NAME := c.hotkey
        MINER_PORT := none
        MINER_STRATEGY := none
        MINER_ID := none
        STRATEGY_WEIGHTS := none
        VALIDATOR_PORT := some c.port
        VIRTUAL_ENV := pathJoin base ".venv"
        PATH := pathJoin (pathJoin base ".venv") "bin" ++ ":" ++ p.PATH } }

/-- The miner portion of the exported `apps` array (lines 60-80): one app per
`minerConfigs` entry whose hotkey file exists.  The filesystem is abstracted
as the predicate `fsEx` on absolute paths. -/
def minerApps (base : String) (p : ProcessEnv) (fsEx : String → Bool) : List App :=
  (minerConfigs.filter
    (fun c => fsEx (hotkeyPath p.HOME (baseEnv p).WALLET_NAME c.hotkey))).map
    (mkMinerApp base p)

/-- The validator portion of the exported `apps` array (lines 83-100). -/
def validatorApps (base : String) (p : ProcessEnv) (fsEx : String → Bool) : List App :=
  (validatorConfigs.filter
    (fun c => fsEx (hotkeyPath p.HOME (baseEnv p).WALLET_NAME c.hotkey))).map
    (mkValidatorApp base p)

/-- The `apps` array exported by `module.exports = { apps }` (line 115):
miners are pushed first, then validators; the export is total, so with no
hotkey file present the module still exports an empty array (the script only
prints a warning in that case, it throws no exception). -/
def exportedApps (base : String) (p : ProcessEnv) (fsEx : String → Bool) : List App :=
  minerApps base p fsEx ++ validatorApps base p fsEx

/-! ## Concrete inputs used by claim theorems and witnesses -/

/-- The three-responder scenario of the spec: {true@0.9, true@0.6,
false@0.95}. -/
def scenarioAnswers : List ResponderAnswer :=
  [⟨"r1", true, 9/10⟩, ⟨"r2", true, 6/10⟩, ⟨"r3", false, 95/100⟩]

/-- A tied answer set: {true@0.5, false@0.5}. -/
def tieAnswers : List ResponderAnswer :=
  [⟨"a", true, 1/2⟩, ⟨"b", false, 1/2⟩]

/-- A concrete process environment with every optional variable unset. -/
def penvUnset : ProcessEnv :=
  ⟨"/home/op", none, none, none, none, none, none, none, none, none, none, "/usr/bin"⟩

/-- A concrete ResponderScore set with one eligible and one ineligible
responder. -/
def sampleScores : List ScoreEntry :=
  [⟨"a", 1⟩, ⟨"b", 0⟩]

/-! ## Helper lemmas -/

/-- Convexity of the scoring update: one update stays within any interval
containing the old score and the reward signal. -/
theorem updateScore_bounds {d lo hi s r : ℚ} (hd0 : 0 ≤ d) (hd1 : d ≤ 1)
    (hs0 : lo ≤ s) (hs1 : s ≤ hi) (hr0 : lo ≤ r) (hr1 : r ≤ hi) :
    lo ≤ updateScore d s r ∧ updateScore d s r ≤ hi := by
  unfold updateScore
  constructor
  · nlinarith
  · nlinarith

/-- Summing a conditional map equals summing the map over the filter. -/
theorem sum_map_ite (l : List ScoreEntry) (p : ScoreEntry → Bool) (g : ScoreEntry → ℚ) :
    (l.map (fun e => if p e then g e else 0)).sum = ((l.filter p).map g).sum := by
  induction l with
  | nil => rfl
  | cons a t ih =>
    by_cases hp : p a = true
    · simp [List.filter_cons, hp, ih]
    · simp [List.filter_cons, hp, ih]

/-- Pulling a constant multiplier and a constant divisor out of a list sum. -/
theorem sum_map_scaled (l : List ScoreEntry) (b t : ℚ) :
    (l.map (fun e => b * e.score / t)).sum = b * (l.map ScoreEntry.score).sum / t := by
  induction l with
  | nil => simp
  | cons a u ih =>
    simp only [List.map_cons, List.sum_cons, ih]
    ring

/-- Pairs of a list zipped with its own image under a map. -/
theorem zip_map_snd (l : List ScoreEntry) (f : ScoreEntry → String × ℚ) :
    ∀ pr ∈ l.zip (l.map f), pr.2 = f pr.1 := by
  induction l with
  | nil => intro pr h; cases h
  | cons a t ih =>
    intro pr h
    simp only [List.map_cons, List.zip_cons_cons, List.mem_cons] at h
    rcases h with h | h
    · rw [h]
    · exact ih pr h

/-! ## Claim theorems -/

/-- C1: on the answer set {true@0.9, true@0.6, false@0.95} with quorum 2 the
ConsensusEngine computes weighted sums true = 3/2 and false = 19/20 and
returns canonical resolution true with canonical confidence
(3/2)/(3/2 + 19/20) = 30/49 (which is 1.5/2.45, approximately 0.612), with no
tie flag. -/
theorem consensus_scenario_weighted_majority :
    trueSum scenarioAnswers = 3/2 ∧ falseSum scenarioAnswers = 19/20 ∧
    (30 : ℚ)/49 = (3/2) / (3/2 + 19/20) ∧
    consensus 2 scenarioAnswers =
      ConsensusOutcome.result ⟨true, 30/49, 3, 2/3, false⟩ := by
  refine ⟨?_, ?_, by norm_num, ?_⟩
  · norm_num [trueSum, scenarioAnswers, List.filter]
  · norm_num [falseSum, scenarioAnswers, List.filter]
  · norm_num [consensus, trueSum, falseSum, agreementShare, scenarioAnswers, List.filter]

/-- C2: ConsensusEngine is a pure deterministic function of the answer set:
two runs on identical input answer sets with at least quorum participants
yield identical ConsensusResults (same resolution, confidence and tie flag). -/
theorem consensus_deterministic (q : ℕ) (a₁ a₂ : List ResponderAnswer)
    (hq : q ≤ a₁.length) (h : a₁ = a₂) :
    consensus q a₁ = consensus q a₂ := by
  rw [h]

/-- Witness for C2 at a concrete quorum-meeting answer set. -/
theorem consensus_deterministic_witness :
    consensus 1 [⟨"r", true, 1⟩] = consensus 1 [⟨"r", true, 1⟩] :=
  consensus_deterministic 1 [⟨"r", true, 1⟩] [⟨"r", true, 1⟩] (by decide) rfl

/-- C3: an answer set below the configured quorum is marked insufficient data
rather than forced to a resolution, and such a statement drives no
ResponderScore update: the whole score map is unchanged by the epoch. -/
theorem below_quorum_insufficient (d : ℚ) (q : ℕ) (answers : List ResponderAnswer)
    (scores : String → ℚ) (h : answers.length < q) :
    consensus q answers = ConsensusOutcome.insufficientData ∧
    scoreEpoch d q answers scores = scores := by
  have hc : consensus q answers = ConsensusOutcome.insufficientData := by
    simp [consensus, h]
  refine ⟨hc, ?_⟩
  unfold scoreEpoch
  rw [hc]

/-- Witness for C3 with one answer and quorum 2. -/
theorem below_quorum_insufficient_witness :
    consensus 2 [⟨"r", true, 1⟩] = ConsensusOutcome.insufficientData ∧
    scoreEpoch (1/2) 2 [⟨"r", true, 1⟩] (fun _ => 1/3) = (fun _ => 1/3) :=
  below_quorum_insufficient (1/2) 2 [⟨"r", true, 1⟩] (fun _ => 1/3) (by decide)

/-- C4: over any sequence of scoring updates with reward signals inside an
interval `[lo, hi]` that also contains the starting score, every updated
ResponderScore stays inside that interval; with `lo = 0`, `hi = 1` this is the
`[0,1]` bound of the claim (scores are exact rationals here, so no NaN or
undefined value can arise). -/
theorem scoring_stays_in_bounds (d lo hi s : ℚ) (rewards : List ℚ)
    (hd0 : 0 ≤ d) (hd1 : d ≤ 1) (hs0 : lo ≤ s) (hs1 : s ≤ hi)
    (hr : ∀ r ∈ rewards, lo ≤ r ∧ r ≤ hi) :
    lo ≤ applyRewards d s rewards ∧ applyRewards d s rewards ≤ hi := by
  induction rewards generalizing s with
  | nil => exact ⟨hs0, hs1⟩
  | cons r t ih =>
    have hrt := hr r (List.mem_cons_self r t)
    obtain ⟨h1, h2⟩ := updateScore_bounds hd0 hd1 hs0 hs1 hrt.1 hrt.2
    exact ih (updateScore d s r) h1 h2 (fun x hx => hr x (List.mem_cons_of_mem r hx))

/-- Witness for C4: extreme rewards 0 and 1 keep the score inside `[0,1]`. -/
theorem scoring_stays_in_bounds_witness :
    0 ≤ applyRewards (1/2) (1/2) [0, 1] ∧ applyRewards (1/2) (1/2) [0, 1] ≤ 1 :=
  scoring_stays_in_bounds (1/2) 0 1 (1/2) [0, 1] (by norm_num) (by norm_num)
    (by norm_num) (by norm_num)
    (by
      intro r hr
      simp only [List.mem_cons, List.not_mem_nil, or_false] at hr
      rcases hr with rfl | rfl <;> norm_num)

/-- C5: a responder none of whose raw submissions survives collection (it
submits nothing, or only late or malformed answers) has an unchanged score
after the epoch: it is neither rewarded, penalized, nor decayed. -/
theorem no_valid_answer_unchanged (deadline d : ℚ) (q : ℕ)
    (raw : List RawAnswer) (scores : String → ℚ) (resp : String)
    (h : ∀ r ∈ raw, r.responder = resp →
      ¬(withinDeadline deadline r = true ∧ wellFormed r = true)) :
    scoreEpoch d q (collect deadline raw) scores resp = scores resp := by
  have hfind : (collect deadline raw).find? (fun a => a.responder == resp) = none := by
    rw [List.find?_eq_none]
    intro a ha
    simp only [collect, List.mem_map, List.mem_filter, Bool.and_eq_true] at ha
    obtain ⟨r, ⟨⟨hraw, hdl, hwf⟩, _⟩, rfl⟩ := ha
    simp only [beq_iff_eq]
    intro hresp
    exact h r hraw hresp ⟨hdl, hwf⟩
  unfold scoreEpoch
  cases consensus q (collect deadline raw) with
  | insufficientData => rfl
  | result r => simp [hfind]

/-- Witness for C5: a reply at time 11 against deadline 10 is classified late
and the responder keeps its score 1/3. -/
theorem no_valid_answer_unchanged_witness :
    scoreEpoch (1/2) 1 (collect 10 [⟨"r1", true, 1/2, 11⟩]) (fun _ => 1/3) "r1" = 1/3 :=
  no_valid_answer_unchanged 10 (1/2) 1 [⟨"r1", true, 1/2, 11⟩] (fun _ => 1/3) "r1"
    (by
      intro r hr hresp
      simp only [List.mem_cons, List.not_mem_nil, or_false] at hr
      subst hr
      norm_num [withinDeadline])

/-- C7: when the confidence-weighted sums of the two sides are exactly equal
and quorum is met, the ConsensusEngine resolves the statement to the declared
default false and sets the explicit tie marker. -/
theorem tie_resolves_to_false (q : ℕ) (answers : List ResponderAnswer)
    (hq : q ≤ answers.length) (ht : trueSum answers = falseSum answers) :
    consensus q answers = ConsensusOutcome.result
      ⟨false, falseSum answers / (trueSum answers + falseSum answers),
        answers.length, agreementShare answers false, true⟩ := by
  have h1 : ¬ (answers.length < q) := not_lt.mpr hq
  simp [consensus, h1, ht]

/-- Witness for C7: the tied answer set {true@0.5, false@0.5} with quorum 2. -/
theorem tie_resolves_to_false_witness :
    consensus 2 tieAnswers = ConsensusOutcome.result
      ⟨false, falseSum tieAnswers / (trueSum tieAnswers + falseSum tieAnswers),
        tieAnswers.length, agreementShare tieAnswers false, true⟩ :=
  tie_resolves_to_false 2 tieAnswers (by decide)
    (by norm_num [trueSum, falseSum, tieAnswers, List.filter])

/-- C6: with at least one eligible responder, WeightPublisher returns a
weight vector with one entry per responder in which every weight is
non-negative, every ineligible responder (score at or below zero or below the
floor) gets exactly zero, and the weights sum exactly to the configured
budget; with no eligible responder it returns the explicit no-weights
result. -/
theorem publish_normalized (floor budget : ℚ) (scores : List ScoreEntry)
    (hb : 0 ≤ budget) :
    (scores.filter (eligibleB floor) = [] →
      publish floor budget scores = PublishResult.noWeights)
    ∧ (scores.filter (eligibleB floor) ≠ [] →
      ∃ w, publish floor budget scores = PublishResult.weights w
        ∧ w.length = scores.length
        ∧ (∀ x ∈ w, 0 ≤ x.2)
        ∧ (∀ pr ∈ scores.zip w, eligibleB floor pr.1 = false → pr.2.2 = 0)
        ∧ (w.map Prod.snd).sum = budget) := by
  constructor
  · intro h
    simp [publish, h]
  · intro h
    have htotal : 0 < ((scores.filter (eligibleB floor)).map ScoreEntry.score).sum := by
      apply List.sum_pos
      · intro x hx
        obtain ⟨e, he, rfl⟩ := List.mem_map.mp hx
        have he2 := (List.mem_filter.mp he).2
        simp only [eligibleB, decide_eq_true_eq] at he2
        exact he2.1
      · simpa using h
    set total := ((scores.filter (eligibleB floor)).map ScoreEntry.score).sum with htot
    refine ⟨scores.map (fun e =>
      (e.responder, if eligibleB floor e then budget * e.score / total else 0)),
      ?_, ?_, ?_, ?_, ?_⟩
    · simp [publish, h, htot]
    · simp
    · intro x hx
      obtain ⟨e, he, rfl⟩ := List.mem_map.mp hx
      by_cases hel : eligibleB floor e = true
      · simp only [hel, if_true]
        have hsc : 0 < e.score := by
          simp only [eligibleB, decide_eq_true_eq] at hel
          exact hel.1
        positivity
      · simp [hel]
    · intro pr hpr hel
      have hz := zip_map_snd scores
        (fun e => (e.responder, if eligibleB floor e then budget * e.score / total else 0))
        pr hpr
      rw [hz]
      simp [hel]
    · rw [List.map_map]
      have hcomp : (Prod.snd ∘ fun e =>
          (e.responder, if eligibleB floor e then budget * e.score / total else 0))
          = fun e => if eligibleB floor e then budget * e.score / total else 0 := rfl
      rw [hcomp, sum_map_ite scores (eligibleB floor) (fun e => budget * e.score / total),
        sum_map_scaled, ← htot]
      field_simp

/-- Witness for C6 on the scores [("a",1), ("b",0)] with floor 0 and
budget 1. -/
theorem publish_normalized_witness :
    ∃ w, publish 0 1 sampleScores = PublishResult.weights w
      ∧ w.length = sampleScores.length
      ∧ (∀ x ∈ w, 0 ≤ x.2)
      ∧ (∀ pr ∈ sampleScores.zip w, eligibleB 0 pr.1 = false → pr.2.2 = 0)
      ∧ (w.map Prod.snd).sum = 1 :=
  (publish_normalized 0 1 sampleScores (by norm_num)).2
    (by norm_num [sampleScores, eligibleB, List.filter])

/-- C8: the configuration surface the spec demands is validated at startup
(the spec-modelled `validateConfig` rejects every out-of-range decay factor
with a descriptive ConfigInvalid error, and acceptance implies every
parameter is in range), while the shipped configuration code performs no such
validation: `baseEnv` substitutes the string default for an unset or empty
variable and passes any other string through unchanged, never rejecting. -/
theorem config_validation_missing_from_shipped_code :
    (∀ c : EngineConfig, c.decayFactor ≤ 0 ∨ 1 ≤ c.decayFactor →
      ∃ msg, validateConfig c = Except.error msg)
    ∧ (∀ c : EngineConfig, validateConfig c = Except.ok c →
        0 < c.collectionDeadline ∧ 1 ≤ c.quorumMin ∧
        0 < c.decayFactor ∧ c.decayFactor < 1 ∧ 0 ≤ c.scoreFloor ∧
        1 ≤ c.publishCadence ∧ 16 ≤ c.fetchIntervalMinutes)
    ∧ (∀ p : ProcessEnv, p.REQUEST_TIMEOUT = none → (baseEnv p).REQUEST_TIMEOUT = "30")
    ∧ (∀ p : ProcessEnv, p.REQUEST_TIMEOUT = some "" → (baseEnv p).REQUEST_TIMEOUT = "30")
    ∧ (∀ (p : ProcessEnv) (s : String), s ≠ "" → p.REQUEST_TIMEOUT = some s →
        (baseEnv p).REQUEST_TIMEOUT = s) := by
  refine ⟨?_, ?_, ?_, ?_, ?_⟩
  · intro c h
    unfold validateConfig
    split_ifs with h1 h2 <;> exact ⟨_, rfl⟩
  · intro c h
    unfold validateConfig at h
    split_ifs at h with h1 h2 h3 h4 h5 h6
    push_neg at h3
    exact ⟨not_le.mp h1, Nat.one_le_iff_ne_zero.mpr h2, h3.1, h3.2, not_lt.mp h4,
      Nat.one_le_iff_ne_zero.mpr h5, not_lt.mp h6⟩
  · intro p h
    simp [baseEnv, jsOr, h]
  · intro p h
    simp [baseEnv, jsOr, h]
  · intro p s hs h
    simp [baseEnv, jsOr, h, hs]

/-- Witness for C8: a decay factor of 2 is rejected by the spec-modelled
validation, while the shipped `baseEnv` silently defaults an unset
REQUEST_TIMEOUT to "30". -/
theorem config_validation_missing_witness :
    (∃ msg, validateConfig ⟨1, 1, 2, 0, 1, 16⟩ = Except.error msg)
    ∧ (baseEnv penvUnset).REQUEST_TIMEOUT = "30" :=
  ⟨(config_validation_missing_from_shipped_code).1 ⟨1, 1, 2, 0, 1, 16⟩ (by norm_num),
    (config_validation_missing_from_shipped_code).2.2.1 penvUnset rfl⟩

/-- C9: a miner or validator config entry contributes an app object to the
exported apps array exactly when its hotkey file exists under
`$HOME/.bittensor/wallets/<WALLET_NAME>/hotkeys/<hotkey>`; every miner app
precedes every validator app; and when no hotkey file exists at all the
export is still an empty array (the script prints a warning and throws no
exception, modelled by totality of `exportedApps`). -/
theorem apps_iff_hotkey_exists (base : String) (p : ProcessEnv) (fsEx : String → Bool) :
    (∀ c ∈ minerConfigs,
      ((∃ a ∈ exportedApps base p fsEx, a.name = c.name) ↔
        fsEx (hotkeyPath p.HOME (baseEnv p).WALLET_NAME c.hotkey) = true))
    ∧ (∀ c ∈ validatorConfigs,
      ((∃ a ∈ exportedApps base p fsEx, a.name = c.name) ↔
        fsEx (hotkeyPath p.HOME (baseEnv p).WALLET_NAME c.hotkey) = true))
    ∧ (∃ ms vs, exportedApps base p fsEx = ms ++ vs
        ∧ (∀ a ∈ ms, a.script = pathJoin base "run_miner.py")
        ∧ (∀ a ∈ vs, a.script = pathJoin base "run_validator.py"))
    ∧ ((∀ s, fsEx s = false) → exportedApps base p fsEx = []) := by
  refine ⟨?_, ?_, ⟨minerApps base p fsEx, validatorApps base p fsEx, rfl, ?_, ?_⟩, ?_⟩
  · intro c hc
    simp only [minerConfigs, List.mem_singleton] at hc
    subst hc
    cases hm : fsEx (hotkeyPath p.HOME (baseEnv p).WALLET_NAME "default") <;>
      cases hv : fsEx (hotkeyPath p.HOME (baseEnv p).WALLET_NAME "validator") <;>
        simp [exportedApps, minerApps, validatorApps, minerConfigs, validatorConfigs,
          List.filter, hm, hv, mkMinerApp, mkValidatorApp]
  · intro c hc
    simp only [validatorConfigs, List.mem_singleton] at hc
    subst hc
    cases hm : fsEx (hotkeyPath p.HOME (baseEnv p).WALLET_NAME "default") <;>
      cases hv : fsEx (hotkeyPath p.HOME (baseEnv p).WALLET_NAME "validator") <;>
        simp [exportedApps, minerApps, validatorApps, minerConfigs, validatorConfigs,
          List.filter, hm, hv, mkMinerApp, mkValidatorApp]
  · intro a ha
    simp only [minerApps, List.mem_map] at ha
    obtain ⟨c, hc, rfl⟩ := ha
    rfl
  · intro a ha
    simp only [validatorApps, List.mem_map] at ha
    obtain ⟨c, hc, rfl⟩ := ha
    rfl
  · intro hall
    simp [exportedApps, minerApps, validatorApps, hall]

/-- Witness for C9: with every hotkey file present the exported array
contains the miner app named sn90-145. -/
theorem apps_iff_hotkey_exists_witness :
    ∃ a ∈ exportedApps "/srv/app" penvUnset (fun _ => true), a.name = "sn90-145" :=
  ((apps_iff_hotkey_exists "/srv/app" penvUnset (fun _ => true)).1
    ⟨"sn90-145", "8091", "default"⟩ (by simp [minerConfigs])).mpr rfl

/-- C10: every app object in the exported array carries the shared base
environment resolved through JavaScript `||` (NETWORK, SUBNET_UID, API_URL
and WALLET_NAME default to "finney", "90", "https://api.subnet90.com" and
"sn90-4"; an unset variable and the empty string are both silently replaced
by the default, any other string passes through), overrides the base
error_file and out_file with its own logs/<name>.error.log and
logs/<name>.log paths, and inherits every other baseConfig field
unchanged. -/
theorem apps_inherit_base_and_defaults (base : String) (p : ProcessEnv) (fsEx : String → Bool) :
    (∀ a ∈ exportedApps base p fsEx,
      a.env.NETWORK = jsOr p.NETWORK "finney"
      ∧ a.env.SUBNET_UID = jsOr p.SUBNET_UID "90"
      ∧ a.env.API_URL = jsOr p.API_URL "https://api.subnet90.com"
      ∧ a.env.WALLET_NAME = jsOr p.WALLET_NAME "sn90-4"
      ∧ a.error_file = pathJoin (pathJoin base "logs") (a.name ++ ".error.log")
      ∧ a.out_file = pathJoin (pathJoin base "logs") (a.name ++ ".log")
      ∧ a.interpreter = (baseConfig base).interpreter
      ∧ a.exec_interpreter = (baseConfig base).exec_interpreter
      ∧ a.exec_mode = (baseConfig base).exec_mode
      ∧ a.cwd = (baseConfig base).cwd
      ∧ a.log_date_format = (baseConfig base).log_date_format
      ∧ a.max_restarts = (baseConfig base).max_restarts
      ∧ a.min_uptime = (baseConfig base).min_uptime
      ∧ a.restart_delay = (baseConfig base).restart_delay
      ∧ a.autorestart = (baseConfig base).autorestart
      ∧ a.watch = (baseConfig base).watch)
    ∧ (∀ d, jsOr none d = d)
    ∧ (∀ d, jsOr (some "") d = d)
    ∧ (∀ s d, s ≠ "" → jsOr (some s) d = s) := by
  refine ⟨?_, fun d => rfl, fun d => by simp [jsOr], ?_⟩
  · intro a ha
    simp only [exportedApps, List.mem_append, minerApps, validatorApps, List.mem_map] at ha
    rcases ha with ⟨c, hc, rfl⟩ | ⟨c, hc, rfl⟩ <;>
      exact ⟨rfl, rfl, rfl, rfl, rfl, rfl, rfl, rfl, rfl, rfl, rfl, rfl, rfl, rfl, rfl, rfl⟩
  · intro s d hs
    simp [jsOr, hs]

/-- Witness for C10: the empty string is replaced by the default "finney"
while a non-empty value passes through. -/
theorem apps_inherit_base_and_defaults_witness :
    jsOr (some "") "finney" = "finney" ∧ jsOr (some "testnet") "finney" = "testnet" :=
  ⟨(apps_inherit_base_and_defaults "/srv/app" penvUnset (fun _ => true)).2.2.1 "finney",
    (apps_inherit_base_and_defaults "/srv/app" penvUnset (fun _ => true)).2.2.2 "testnet"
      "finney" (by decide)⟩
